import Mathlib

set_option maxRecDepth 200000

/-!
Verification development for the DOCU-GENIE retrieval pipeline.

This file gives a shallow embedding, in Lean 4, of the core of the
backend services (`vectorService.js`, `aiService.js`,
`documentProcessor.js`, and the `dbUtils` layer of `config/database.js`)
and proves or refutes the specification claims about them.

Conventions of the embedding:
* JavaScript strings are modelled as `String` / `List Char`
  (`.length` is the character count; all texts of interest are in the
  basic multilingual plane, where this agrees with JS UTF-16 lengths).
* JavaScript numbers are modelled exactly: the 32-bit wrap-around of the
  hash is `% 2^32` arithmetic on `Int`, similarity scores and embedding
  weights are `ℚ` (the float operations involved are idealised as exact
  arithmetic), and the final L2 normalisation is over `ℝ`.
* Asynchronous calls to external collaborators (the embedding provider,
  the Chroma index, the SQLite database, the generation model) are
  modelled by explicit environment records; "the call throws" is an
  explicit outcome value.
-/

/-! ## JavaScript string primitives -/

/-- Character class of the JS regex `\s` restricted to the characters the
repository ever feeds it (ASCII whitespace plus vertical tab and form feed). -/
def isJsWS (c : Char) : Bool :=
  c = ' ' || c = '\t' || c = '\n' || c = '\r' || c = '\x0b' || c = '\x0c'

/-- JS `String.prototype.trim` on a list of characters. -/
def jsTrimL (l : List Char) : List Char :=
  ((l.dropWhile isJsWS).reverse.dropWhile isJsWS).reverse

/-- JS `String.prototype.trim`. -/
def jsTrim (s : String) : String := String.mk (jsTrimL s.data)

/-- Helper for `splitWS`: `inGap` records whether the previous character was
whitespace (so that a maximal run yields a single separation), `acc` is the
(reversed) current token. -/
def splitWSGo (inGap : Bool) (acc : List Char) : List Char → List String
  | [] => [String.mk acc.reverse]
  | c :: cs =>
    if isJsWS c then
      if inGap then splitWSGo true acc cs
      else String.mk acc.reverse :: splitWSGo true [] cs
    else splitWSGo false (c :: acc) cs

/-- JS `s.split(/\s+/)`: splits at maximal whitespace runs.  Faithful to the
JS semantics, including the artifacts: `"" ↦ [""]`, a leading whitespace run
contributes a leading empty token, a trailing one a trailing empty token. -/
def splitWS (s : String) : List String := splitWSGo false [] s.data

example : splitWS "" = [""] := by decide
example : splitWS " " = ["", ""] := by decide
example : splitWS " a  b " = ["", "a", "b", ""] := by decide
example : splitWS "ab cd" = ["ab", "cd"] := by decide

/-! ## vectorService.js — the fallback embedding -/

/-- Wrap an integer to the range of a 32-bit two's-complement integer; this is
what the JS coercion `hash & hash` (`ToInt32`) does. -/
def toInt32 (n : Int) : Int := (n + 2 ^ 31) % 2 ^ 32 - 2 ^ 31

/-- One step of `simpleHash`: JS `hash = ((hash << 5) - hash) + char;
hash = hash & hash`.  The shift `hash << 5` itself wraps to 32 bits before
the (exact, double-precision) subtraction and addition. -/
def simpleHashStep (h : Int) (c : Nat) : Int :=
  toInt32 (toInt32 (h * 32) - h + c)

/-- `simpleHash` of `vectorService.js` (lines 72–80): the classic 31-multiplier
string hash over UTF-16 code units, wrapped to a signed 32-bit integer. -/
def simpleHash (s : String) : Int :=
  s.data.foldl (fun h c => simpleHashStep h c.toNat) 0

/-- Length of the fallback embedding vector (`new Array(384)`). -/
def vecLen : Nat := 384

/-- The slot a word contributes to: JS `Math.abs(hash) % embedding.length`. -/
def hashSlot (w : String) : Nat := (simpleHash w).natAbs % vecLen

/-- One iteration of the `words.forEach` accumulation:
`embedding[position] += 1 / (index + 1)`. -/
def updateSlot (emb : List ℚ) (i : Nat) (w : String) : List ℚ :=
  emb.set (hashSlot w) (emb.getD (hashSlot w) 0 + 1 / ((i : ℚ) + 1))

/-- Pair every element of a list with its index, starting at `i`. -/
def idxFrom (i : Nat) : List α → List (Nat × α)
  | [] => []
  | a :: l => (i, a) :: idxFrom (i + 1) l

/-- The accumulation phase of `createFallbackEmbedding`: lower-case, split on
whitespace, and fold the per-word weights into a length-384 accumulator. -/
def rawEmbedding (text : String) : List ℚ :=
  (idxFrom 0 (splitWS text.toLower)).foldl
    (fun emb p => updateSlot emb p.1 p.2) (List.replicate vecLen 0)

/-- Sum of squares of a rational vector;
`embedding.reduce((sum, val) => sum + val * val, 0)`. -/
def sumSq (l : List ℚ) : ℚ := (l.map fun v => v * v).sum

/-- Divide every component by the L2 norm of the vector
(`embedding.map(val => val / magnitude)` with `magnitude` the square root of
the sum of squares). -/
noncomputable def l2Normalize (l : List ℚ) : List ℝ :=
  l.map fun (v : ℚ) => (v : ℝ) / Real.sqrt ((sumSq l : ℝ))

/-- `createFallbackEmbedding` of `vectorService.js` (lines 56–69).  The JS
guard `magnitude > 0` is expressed as `0 < sumSq emb`, which is equivalent
since `Math.sqrt x > 0 ↔ x > 0` for the nonnegative sum of squares. -/
noncomputable def createFallbackEmbedding (text : String) : List ℝ :=
  let emb := rawEmbedding text
  if 0 < sumSq emb then l2Normalize emb else emb.map fun (v : ℚ) => (v : ℝ)

/-- Outcome of the call to the primary (Google) embedding provider: either the
vector it returned, or the exception it threw / the timeout. -/
inductive PrimaryOutcome where
  | ok (v : List ℝ)
  | thrown (msg : String)

/-- `createEmbeddings` of `vectorService.js` (lines 39–53): return the primary
provider's vector; on any error fall back to the deterministic local
embedding.  Totality of this definition is the "never fails outwardly" of the
contract. -/
noncomputable def createEmbeddings (primary : PrimaryOutcome) (text : String) :
    List ℝ :=
  match primary with
  | .ok v => v
  | .thrown _ => createFallbackEmbedding text

/-! ### The claim-side description of the fallback embedding (C1)

Written from the words of the claim: "a length-384 vector built by, for each
word at 0-indexed position i, hashing the word, taking the hash modulo 384 as
the target slot, and adding 1/(i+1) to that slot", then L2-normalised unless
all-zero.  The slot values are described pointwise, as a sum over the word
list, rather than by the program's destructive fold. -/

/-- Claim-side value of slot `j`: the total weight of the words that hash to
slot `j`, each word at position `i` contributing `1 / (i + 1)`. -/
def claimSlotValue (ws : List String) (j : Nat) : ℚ :=
  ((idxFrom 0 ws).map fun p =>
    if hashSlot p.2 = j then 1 / ((p.1 : ℚ) + 1) else 0).sum

/-- Claim-side accumulator: the length-384 vector of slot values. -/
def claimRawVector (text : String) : List ℚ :=
  (List.range vecLen).map (claimSlotValue (splitWS text.toLower))

/-- Claim-side final vector: L2-normalised unless all-zero. -/
noncomputable def claimFallbackVector (text : String) : List ℝ :=
  let raw := claimRawVector text
  if 0 < sumSq raw then l2Normalize raw else raw.map fun (v : ℚ) => (v : ℝ)

/-! ### Equivalence of the fold with the pointwise description -/

theorem getD_set_self (l : List α) (i : Nat) (a d : α) (h : i < l.length) :
    (l.set i a).getD i d = a := by
  induction l generalizing i with
  | nil => simp at h
  | cons b l ih =>
    cases i with
    | zero => simp [List.set, List.getD]
    | succ i => simpa [List.set, List.getD] using ih i (by simpa using h)

theorem getD_set_ne (l : List α) (i j : Nat) (a d : α) (h : i ≠ j) :
    (l.set i a).getD j d = l.getD j d := by
  induction l generalizing i j with
  | nil => simp [List.set]
  | cons b l ih =>
    cases i with
    | zero =>
      cases j with
      | zero => exact absurd rfl h
      | succ j => simp [List.set, List.getD]
    | succ i =>
      cases j with
      | zero => simp [List.set, List.getD]
      | succ j =>
        simpa [List.set, List.getD] using ih i j (fun hc => h (by omega))

theorem length_foldl_updateSlot (L : List (Nat × String)) (v : List ℚ) :
    (L.foldl (fun emb p => updateSlot emb p.1 p.2) v).length = v.length := by
  induction L generalizing v with
  | nil => rfl
  | cons p L ih => simpa [updateSlot] using ih (updateSlot v p.1 p.2)

theorem hashSlot_lt (w : String) : hashSlot w < vecLen :=
  Nat.mod_lt _ (by decide)

/-- Contribution of an indexed word list to slot `j`. -/
def sumContrib (L : List (Nat × String)) (j : Nat) : ℚ :=
  (L.map fun p => if hashSlot p.2 = j then 1 / ((p.1 : ℚ) + 1) else 0).sum

theorem foldl_updateSlot_getD (L : List (Nat × String)) (v : List ℚ)
    (hv : v.length = vecLen) (j : Nat) (hj : j < vecLen) :
    (L.foldl (fun emb p => updateSlot emb p.1 p.2) v).getD j 0 =
      v.getD j 0 + sumContrib L j := by
  induction L generalizing v with
  | nil => simp [sumContrib]
  | cons p L ih =>
    have hlen : (updateSlot v p.1 p.2).length = vecLen := by
      simpa [updateSlot] using hv
    have hstep : (updateSlot v p.1 p.2).getD j 0 =
        v.getD j 0 + (if hashSlot p.2 = j then 1 / ((p.1 : ℚ) + 1) else 0) := by
      by_cases hsl : hashSlot p.2 = j
      · subst hsl
        simp only [updateSlot, if_pos rfl]
        exact getD_set_self v _ _ 0 (hv ▸ hashSlot_lt p.2)
      · simp only [updateSlot, if_neg hsl, add_zero]
        exact getD_set_ne v _ _ _ 0 hsl
    calc ((p :: L).foldl (fun emb q => updateSlot emb q.1 q.2) v).getD j 0
        = (L.foldl (fun emb q => updateSlot emb q.1 q.2)
            (updateSlot v p.1 p.2)).getD j 0 := rfl
      _ = (updateSlot v p.1 p.2).getD j 0 + sumContrib L j := ih _ hlen
      _ = v.getD j 0 + sumContrib (p :: L) j := by
          rw [hstep]; simp [sumContrib]; ring

theorem rawEmbedding_length (text : String) :
    (rawEmbedding text).length = vecLen := by
  simpa [rawEmbedding] using
    length_foldl_updateSlot (idxFrom 0 (splitWS text.toLower))
      (List.replicate vecLen 0)

theorem claimRawVector_length (text : String) :
    (claimRawVector text).length = vecLen := by
  simp [claimRawVector]

theorem getD_replicate_zero (n j : Nat) :
    (List.replicate n (0 : ℚ)).getD j 0 = 0 := by
  induction n generalizing j with
  | zero => simp [List.getD]
  | succ n ih =>
    cases j with
    | zero => simp [List.replicate, List.getD]
    | succ j => simp only [List.replicate, List.getD_cons_succ]; exact ih j

theorem getD_eq_getElem_of_lt (l : List α) (d : α) {j : Nat}
    (h : j < l.length) : l.getD j d = l[j] := by
  rw [List.getD_eq_getElem?_getD, List.getElem?_eq_getElem h, Option.getD_some]

theorem rawEmbedding_eq_claimRawVector (text : String) :
    rawEmbedding text = claimRawVector text := by
  have hlen : (rawEmbedding text).length = vecLen := rawEmbedding_length text
  have hlen' : (claimRawVector text).length = vecLen := claimRawVector_length text
  apply List.ext_getElem (by rw [hlen, hlen'])
  intro j hj hj'
  have hjv : j < vecLen := by rwa [hlen] at hj
  have h1 : (rawEmbedding text).getD j 0 =
      claimSlotValue (splitWS text.toLower) j := by
    have h := foldl_updateSlot_getD (idxFrom 0 (splitWS text.toLower))
      (List.replicate vecLen 0) (by simp) j hjv
    rw [rawEmbedding, h, getD_replicate_zero, zero_add]
    rfl
  have h2 : (claimRawVector text)[j] =
      claimSlotValue (splitWS text.toLower) j := by
    have hr : j < (List.range vecLen).length := by simpa using hjv
    simp [claimRawVector, List.getElem_map, List.getElem_range]
  rw [← getD_eq_getElem_of_lt _ 0 hj, h1, h2]

/-! ### Norm facts about the fallback embedding -/

/-- Sum of squares of a real vector. -/
def sumSqR (l : List ℝ) : ℝ := (l.map fun v => v * v).sum

theorem sumSq_nonneg (l : List ℚ) : 0 ≤ sumSq l := by
  induction l with
  | nil => simp [sumSq]
  | cons a l ih =>
    simp only [sumSq, List.map_cons, List.sum_cons] at *
    exact add_nonneg (mul_self_nonneg a) ih

theorem sumSq_eq_zero_iff (l : List ℚ) (h : sumSq l = 0) :
    ∀ v ∈ l, v = 0 := by
  induction l with
  | nil => simp
  | cons a l ih =>
    simp only [sumSq, List.map_cons, List.sum_cons] at h
    have ha : 0 ≤ a * a := mul_self_nonneg a
    have hl : 0 ≤ sumSq l := sumSq_nonneg l
    have ha0 : a * a = 0 := by
      have := sumSq_nonneg l
      simp only [sumSq] at this
      nlinarith
    have hl0 : sumSq l = 0 := by
      simp only [sumSq]
      nlinarith
    intro v hv
    rcases List.mem_cons.mp hv with h1 | h2
    · subst h1; exact mul_self_eq_zero.mp ha0
    · exact ih hl0 v h2

theorem sumSqR_map_cast (l : List ℚ) :
    sumSqR (l.map fun (v : ℚ) => (v : ℝ)) = ((sumSq l : ℚ) : ℝ) := by
  induction l with
  | nil => simp [sumSqR, sumSq]
  | cons a l ih =>
    simp only [sumSqR, sumSq, List.map_cons, List.sum_cons] at *
    push_cast
    rw [ih]
    push_cast
    ring

theorem sumSqR_l2Normalize (l : List ℚ) (h : 0 < sumSq l) :
    sumSqR (l2Normalize l) = 1 := by
  have hR : (0 : ℝ) < ((sumSq l : ℚ) : ℝ) := by exact_mod_cast h
  have hs : Real.sqrt ((sumSq l : ℚ) : ℝ) ^ 2 = ((sumSq l : ℚ) : ℝ) :=
    Real.sq_sqrt (le_of_lt hR)
  have hsne : Real.sqrt ((sumSq l : ℚ) : ℝ) ≠ 0 :=
    ne_of_gt (Real.sqrt_pos.mpr hR)
  have key : ∀ m : List ℚ,
      sumSqR (m.map fun (v : ℚ) => (v : ℝ) / Real.sqrt ((sumSq l : ℚ) : ℝ)) =
        ((sumSq m : ℚ) : ℝ) / ((sumSq l : ℚ) : ℝ) := by
    intro m
    induction m with
    | nil => simp [sumSqR, sumSq]
    | cons a m ih =>
      simp only [sumSqR, sumSq, List.map_cons, List.sum_cons] at *
      rw [ih, div_mul_div_comm, Real.mul_self_sqrt (le_of_lt hR)]
      push_cast
      ring
  rw [l2Normalize, key l, div_self (ne_of_gt hR)]

theorem length_l2Normalize (l : List ℚ) : (l2Normalize l).length = l.length := by
  simp [l2Normalize]

theorem createFallbackEmbedding_length (text : String) :
    (createFallbackEmbedding text).length = vecLen := by
  rw [createFallbackEmbedding]
  by_cases h : 0 < sumSq (rawEmbedding text)
  · simp only [h, if_true]
    rw [length_l2Normalize, rawEmbedding_length]
  · simp only [h, if_false, List.length_map]
    exact rawEmbedding_length text

/-- Claim C1: the fallback embedding function lower-cases the text, splits on
whitespace, accumulates weight `1/(i+1)` for the word at position `i` into the
slot given by the word's hash modulo 384, L2-normalises the resulting
length-384 vector unless it is all-zero, and is a deterministic function of
the text.  The first conjunct is the refinement: the program's destructive
fold (`createFallbackEmbedding`) equals the claim-side pointwise description
(`claimFallbackVector`); the others give the length and determinism. -/
theorem C1_fallback_embedding (text : String) :
    createFallbackEmbedding text = claimFallbackVector text ∧
    (createFallbackEmbedding text).length = 384 ∧
    (∀ t' : String, text = t' →
      createFallbackEmbedding text = createFallbackEmbedding t') := by
  refine ⟨?_, createFallbackEmbedding_length text, ?_⟩
  · rw [createFallbackEmbedding, claimFallbackVector,
      rawEmbedding_eq_claimRawVector]
  · intro t' h
    rw [h]

/-- Witness for C1 at a concrete input: the raw accumulator of `"ab cd"` is
length-384 and positive somewhere, so the branch facts are concrete. -/
theorem C1_fallback_embedding_witness :
    ("ab cd" : String) = "ab cd" ∧
    createFallbackEmbedding "ab cd" = createFallbackEmbedding "ab cd" :=
  ⟨rfl, (C1_fallback_embedding "ab cd").2.2 "ab cd" rfl⟩

/-- Claim C8: `createEmbeddings` never fails outwardly — when the primary
provider throws, it returns the deterministic fallback vector, which has
length 384 and is either of unit L2 norm or all-zero.  (Totality of
`createEmbeddings` in this embedding is exactly "no exception propagates".) -/
theorem C8_embed_never_fails (msg : String) (text : String) :
    createEmbeddings (.thrown msg) text = createFallbackEmbedding text ∧
    (createEmbeddings (.thrown msg) text).length = 384 ∧
    (sumSqR (createEmbeddings (.thrown msg) text) = 1 ∨
      ∀ x ∈ createEmbeddings (.thrown msg) text, x = 0) := by
  refine ⟨rfl, createFallbackEmbedding_length text, ?_⟩
  rw [show createEmbeddings (.thrown msg) text = createFallbackEmbedding text
    from rfl]
  rw [createFallbackEmbedding]
  by_cases h : 0 < sumSq (rawEmbedding text)
  · left
    simp only [h, if_true]
    exact sumSqR_l2Normalize _ h
  · right
    simp only [h, if_false]
    intro x hx
    rcases List.mem_map.mp hx with ⟨v, hv, hxv⟩
    have hz : sumSq (rawEmbedding text) = 0 :=
      le_antisymm (not_lt.mp h) (sumSq_nonneg _)
    have : v = 0 := sumSq_eq_zero_iff _ hz v hv
    rw [← hxv, this]
    exact Rat.cast_zero

/-! ## aiService.js — `splitTextIntoChunks` and its helpers -/

/-- Collapse every maximal run of characters satisfying `p` into the single
character `rep`; this is JS `.replace(runRegex, rep)` for a character-class
run regex. -/
def collapseRunsGo (p : Char → Bool) (rep : Char) (inRun : Bool) :
    List Char → List Char
  | [] => []
  | c :: cs =>
    if p c then
      if inRun then collapseRunsGo p rep true cs
      else rep :: collapseRunsGo p rep true cs
    else c :: collapseRunsGo p rep false cs

/-- Collapse maximal `p`-runs to `rep`, starting outside a run. -/
def collapseRuns (p : Char → Bool) (rep : Char) (l : List Char) : List Char :=
  collapseRunsGo p rep false l

/-- If `pat` is a leading segment of `l`, return the remainder of `l`. -/
def dropLit : List Char → List Char → Option (List Char)
  | [], l => some l
  | _ :: _, [] => none
  | c :: cs, d :: l => if c = d then dropLit cs l else none

/-- Try to match the regex `--- Page \d+ ---` at the head of `l`; on success
return the remainder after the match. -/
def matchMarker (l : List Char) : Option (List Char) :=
  match dropLit ("--- Page ".data) l with
  | none => none
  | some l1 =>
    let ds := l1.takeWhile Char.isDigit
    if ds.length = 0 then none
    else dropLit (" ---".data) (l1.drop ds.length)

/-- Remove every (non-overlapping, leftmost-first) occurrence of
`--- Page \d+ ---`; `fuel` bounds the number of scanning steps and is always
called with the length of the list, which suffices since every step consumes
at least one character. -/
def stripMarkersGo : Nat → List Char → List Char
  | _, [] => []
  | 0, l => l
  | fuel + 1, c :: cs =>
    match matchMarker (c :: cs) with
    | some rest => stripMarkersGo fuel rest
    | none => c :: stripMarkersGo fuel cs

/-- JS `.replace(/--- Page \d+ ---/g, '')`. -/
def stripMarkers (l : List Char) : List Char := stripMarkersGo l.length l

/-- The text cleaning at the head of `splitTextIntoChunks` (lines 505–510):
collapse whitespace runs to a single space, newline runs to a single newline
(a no-op after the first step), drop page markers, then trim. -/
def cleanText (s : String) : List Char :=
  jsTrimL (stripMarkers
    (collapseRuns (fun c => c = '\n') '\n' (collapseRuns isJsWS ' ' s.data)))

/-- Sentence-terminator class of the split regex `[.!?]+`. -/
def isTerm (c : Char) : Bool := c = '.' || c = '!' || c = '?'

/-- Split at maximal runs of sentence terminators (JS
`cleanedText.split(/[.!?]+/)`), keeping the empty boundary artifacts. -/
def splitTermGo (inGap : Bool) (acc : List Char) : List Char → List (List Char)
  | [] => [acc.reverse]
  | c :: cs =>
    if isTerm c then
      if inGap then splitTermGo true acc cs
      else acc.reverse :: splitTermGo true [] cs
    else splitTermGo false (c :: acc) cs

/-- The sentence list of the chunker: split on terminator runs, keep the
pieces whose trimmed form is non-empty
(`.filter(sentence => sentence.trim().length > 0)`). -/
def sentencesOf (l : List Char) : List (List Char) :=
  (splitTermGo false [] l).filter fun s => (jsTrimL s).length > 0

/-- JS `str.split(' ')` (single-character string separator): splits at every
space, keeping empty pieces; result is always non-empty. -/
def splitOnSpace : List Char → List (List Char)
  | [] => [[]]
  | c :: cs =>
    if c = ' ' then [] :: splitOnSpace cs
    else (c :: (splitOnSpace cs).headD []) :: (splitOnSpace cs).tail

/-- JS `arr.join(' ')`. -/
def joinSpace : List (List Char) → List Char
  | [] => []
  | [t] => t
  | t :: ts => t ++ ' ' :: joinSpace ts

/-- JS `arr.slice(-k)` for a non-negative `k`: the JS quirk `slice(-0)`
returns the whole array. -/
def jsSliceNegL (ws : List (List Char)) (k : Nat) : List (List Char) :=
  if k = 0 then ws else ws.drop (ws.length - k)

/-- The overlap carried into a fresh chunk:
`currentChunk.split(' ').slice(-Math.floor(overlapSize / 10)).join(' ')`. -/
def overlapSeed (cur : List Char) (k : Nat) : List Char :=
  joinSpace (jsSliceNegL (splitOnSpace cur) k)

/-- State of the sentence-accumulation loop: the closed chunks and the
running buffer `currentChunk`. -/
structure ChunkState where
  chunks : List (List Char)
  cur : List Char

/-- One iteration of the `for (const sentence of sentences)` loop of
`splitTextIntoChunks` (lines 516–530). -/
def chunkStep (maxSize k : Nat) (st : ChunkState) (sentence : List Char) :
    ChunkState :=
  let s := jsTrimL sentence
  if st.cur.length + s.length > maxSize ∧ st.cur.length > 0 then
    { chunks := st.chunks ++ [jsTrimL st.cur],
      cur := overlapSeed st.cur k ++ ' ' :: s }
  else
    { chunks := st.chunks,
      cur := if st.cur.length = 0 then s else st.cur ++ ' ' :: s }

/-- The sentence-accumulation path of `splitTextIntoChunks`: fold the loop
over the sentences and append the final non-empty trimmed buffer. -/
def sentenceChunks (text : String) (maxSize overlap : Nat) : List (List Char) :=
  let final := (sentencesOf (cleanText text)).foldl
    (chunkStep maxSize (overlap / 10)) ⟨[], []⟩
  final.chunks ++
    (if (jsTrimL final.cur).length > 0 then [jsTrimL final.cur] else [])

/-- Single pass over the characters recording the last space seen at an
index `≤ f`; `i` is the index of the head of the remaining list. -/
def lastSpaceLE : List Char → Nat → Nat → Int → Int
  | [], _, _, best => best
  | c :: cs, i, f, best =>
    if f < i then best
    else lastSpaceLE cs (i + 1) f (if c = ' ' then (i : Int) else best)

/-- JS `text.lastIndexOf(' ', fromIdx)`: the largest index `i ≤ fromIdx`
(clamped into the string) holding a space, or `-1`. -/
def jsLastIndexOfSpace (l : List Char) (fromIdx : Int) : Int :=
  let f : Nat := if fromIdx < 0 then 0 else min fromIdx.toNat (l.length - 1)
  lastSpaceLE l 0 f (-1)

/-- JS `text.slice(a, b)` with the negative-index convention. -/
def jsSliceL (l : List Char) (a b : Int) : List Char :=
  let len : Int := l.length
  let s : Nat := (if a < 0 then max (len + a) 0 else min a len).toNat
  let e : Nat := (if b < 0 then max (len + b) 0 else min b len).toNat
  (l.drop s).take (e - s)

/-- The slice end chosen by one iteration of `splitByCharacterLimit`
(lines 551–559): `start + maxChunkSize`, snapped back to the last space when
that is not the last chunk and the space lies strictly after `start`. -/
def nextEnd (l : List Char) (maxSize : Nat) (start : Int) : Int :=
  let e0 : Int := start + maxSize
  if e0 < (l.length : Int) then
    let ls := jsLastIndexOfSpace l e0
    if ls > start then ls else e0
  else e0

/-- The `while (start < text.length)` loop of `splitByCharacterLimit`,
indexed by fuel; `none` means the loop did not finish within `fuel`
iterations.  `start` is an `Int` because `start = end - overlapSize` can go
negative, exactly as the JS variable does. -/
def charLimitGo (l : List Char) (maxSize overlap : Nat) :
    Nat → Int → List (List Char) → Option (List (List Char))
  | 0, _, _ => none
  | fuel + 1, start, acc =>
    if start < (l.length : Int) then
      charLimitGo l maxSize overlap fuel (nextEnd l maxSize start - overlap)
        (acc ++ [jsTrimL (jsSliceL l start (nextEnd l maxSize start))])
    else some acc

/-- `splitByCharacterLimit` of `aiService.js` (lines 546–566), fuel-indexed:
run the slicing loop from `start = 0` and drop the empty chunks. -/
def splitByCharacterLimit (fuel : Nat) (l : List Char)
    (maxSize overlap : Nat) : Option (List (List Char)) :=
  (charLimitGo l maxSize overlap fuel 0 []).map
    (List.filter fun c => c.length > 0)

/-- `splitTextIntoChunks` of `aiService.js` (lines 502–543): clean the text,
chunk by sentence accumulation, and fall back to fixed-width slicing when
that yields no chunks.  `none` means the character-limit fallback loop did
not terminate within `fuel` iterations. -/
def splitTextIntoChunks (fuel : Nat) (text : String) (maxSize overlap : Nat) :
    Option (List String) :=
  let cleaned := cleanText text
  let chunks := sentenceChunks text maxSize overlap
  if chunks.length = 0 ∧ cleaned.length > 0 then
    (splitByCharacterLimit fuel cleaned maxSize overlap).map
      (List.map String.mk)
  else some (chunks.map String.mk)

example : sentenceChunks "aaaa. bbbbbb." 10 200 =
    ["aaaa bbbbbb".data] := by decide
example : cleanText " a  b --- Page 3 --- c " = "a b  c".data := by decide
example : splitByCharacterLimit 9 "ab cd ef".data 4 1 =
    some ["ab".data, "b cd".data, "d ef".data, "f".data] := by decide

/-! ### C10 — the character-limit fallback loop can fail to terminate -/

/-- One unfolding of the character-limit loop while the loop guard holds. -/
theorem charLimitGo_step (l : List Char) (maxSize overlap : Nat)
    (fuel : Nat) (start : Int) (acc : List (List Char))
    (hs : start < (l.length : Int)) :
    charLimitGo l maxSize overlap (fuel + 1) start acc =
      charLimitGo l maxSize overlap fuel
        (nextEnd l maxSize start - overlap)
        (acc ++ [jsTrimL (jsSliceL l start (nextEnd l maxSize start))]) := by
  simp only [charLimitGo]
  rw [if_pos hs]

/-- If some reachable value of `start` is a fixed point of the loop's update
while the guard still holds, the loop never terminates, whatever the fuel. -/
theorem charLimitGo_stuck (l : List Char) (maxSize overlap : Nat) (s : Int)
    (hs : s < (l.length : Int))
    (hfix : nextEnd l maxSize s - (overlap : Int) = s) :
    ∀ fuel acc, charLimitGo l maxSize overlap fuel s acc = none := by
  intro fuel
  induction fuel with
  | zero => intro acc; rfl
  | succ n ih =>
    intro acc
    rw [charLimitGo_step l maxSize overlap n s acc hs, hfix]
    exact ih _

/-- The failing input for C10: the character `a`, a space, then 1000 `b`s
(1002 characters, the only space at index 1). -/
def c10Text : List Char := 'a' :: ' ' :: List.replicate 1000 'b'

/-- Claim C10 (refuted — code bug): on the 1002-character input
`"a" ++ " " ++ "b"*1000` with the default parameters
`maxChunkSize = 1000`, `overlapSize = 200`, the loop of
`splitByCharacterLimit` does NOT terminate: the first iteration snaps the
slice end back to the space at index 1 and sets `start = 1 - 200 = -199`,
after which every iteration recomputes `end = 1` and `start = -199` forever.
The fuel-indexed model therefore returns `none` for every fuel. -/
theorem C10_charlimit_loop_diverges :
    ∀ fuel : Nat, splitByCharacterLimit fuel c10Text 1000 200 = none := by
  have hlen : ((-199 : Int)) < (c10Text.length : Int) := by decide
  have hfix : nextEnd c10Text 1000 (-199) - ((200 : Nat) : Int) = -199 := by
    decide
  have hstuck := charLimitGo_stuck c10Text 1000 200 (-199) hlen hfix
  intro fuel
  cases fuel with
  | zero => rfl
  | succ n =>
    have h0 : (0 : Int) < (c10Text.length : Int) := by decide
    have hne : nextEnd c10Text 1000 0 - ((200 : Nat) : Int) = -199 := by decide
    rw [splitByCharacterLimit, charLimitGo_step c10Text 1000 200 n 0 [] h0,
      hne, hstuck]
    rfl

/-! ### C3 — chunk sizes from the sentence-accumulation path -/

/-- The counterexample text for C3. -/
def c3Text : String := "aaaa. bbbbbb."

/-- Claim C3 (refuted): with `maxSize = 10`, `overlap = 200`, the chunker
splits `"aaaa. bbbbbb."` into the single passage `"aaaa bbbbbb"` of length
11 > maxSize, although every sentence of the cleaned text has length at most
10 — so the oversized passage is not a single over-long sentence placed
verbatim.  (The loop's size test `currentChunk.length +
trimmedSentence.length > maxChunkSize` does not count the joining space.) -/
theorem C3_counterexample :
    splitTextIntoChunks 1 c3Text 10 200 = some ["aaaa bbbbbb"] ∧
    ("aaaa bbbbbb" : String).length = 11 ∧ 10 < 11 ∧
    ∀ s ∈ sentencesOf (cleanText c3Text), (jsTrimL s).length ≤ 10 := by
  refine ⟨by decide, by decide, by decide, by decide⟩

/-! ### Token lemmas for the overlap seed -/

theorem splitOnSpace_ne_nil (l : List Char) : splitOnSpace l ≠ [] := by
  cases l with
  | nil => simp [splitOnSpace]
  | cons c cs =>
    rw [splitOnSpace]
    by_cases h : c = ' ' <;> simp [h]

theorem headD_mem (l : List α) (d : α) (h : l ≠ []) : l.headD d ∈ l := by
  cases l with
  | nil => exact absurd rfl h
  | cons a l => simp [List.headD]

theorem mem_of_mem_tail' {l : List α} {a : α} (h : a ∈ l.tail) : a ∈ l := by
  cases l with
  | nil => simp [List.tail] at h
  | cons b l => exact List.mem_cons_of_mem b h

theorem space_not_mem_splitOnSpace (l : List Char) :
    ∀ t ∈ splitOnSpace l, ' ' ∉ t := by
  induction l with
  | nil =>
    intro t ht
    simp [splitOnSpace] at ht
    simp [ht]
  | cons c cs ih =>
    intro t ht
    rw [splitOnSpace] at ht
    by_cases h : c = ' '
    · simp only [h, if_pos rfl] at ht
      rcases List.mem_cons.mp ht with h1 | h2
      · simp [h1]
      · exact ih t h2
    · simp only [if_neg h] at ht
      rcases List.mem_cons.mp ht with h1 | h2
      · subst h1
        intro hsp
        rcases List.mem_cons.mp hsp with h3 | h4
        · exact h h3.symm
        · exact ih _ (headD_mem _ _ (splitOnSpace_ne_nil cs)) h4
      · exact ih t (mem_of_mem_tail' h2)

theorem splitOnSpace_append (a b : List Char) :
    splitOnSpace (a ++ ' ' :: b) = splitOnSpace a ++ splitOnSpace b := by
  induction a with
  | nil => simp [splitOnSpace]
  | cons c a ih =>
    by_cases h : c = ' '
    · subst h
      show splitOnSpace (' ' :: (a ++ ' ' :: b)) = _
      rw [splitOnSpace, if_pos rfl, ih]
      rw [show splitOnSpace (' ' :: a) = [] :: splitOnSpace a from by
        rw [splitOnSpace, if_pos rfl]]
      rfl
    · show splitOnSpace (c :: (a ++ ' ' :: b)) = _
      rw [splitOnSpace, if_neg h, ih]
      rw [show splitOnSpace (c :: a) =
        (c :: (splitOnSpace a).headD []) :: (splitOnSpace a).tail from by
        rw [splitOnSpace, if_neg h]]
      cases hsa : splitOnSpace a with
      | nil => exact absurd hsa (splitOnSpace_ne_nil a)
      | cons x xs => simp

theorem splitOnSpace_no_space (t : List Char) (h : ' ' ∉ t) :
    splitOnSpace t = [t] := by
  induction t with
  | nil => rfl
  | cons c t ih =>
    have hc : c ≠ ' ' := fun hc => h (hc ▸ List.mem_cons_self c t)
    have ht : ' ' ∉ t := fun ht => h (List.mem_cons_of_mem c ht)
    rw [splitOnSpace, if_neg hc, ih ht]
    rfl

theorem splitOnSpace_joinSpace :
    ∀ ts : List (List Char), ts ≠ [] → (∀ t ∈ ts, ' ' ∉ t) →
      splitOnSpace (joinSpace ts) = ts
  | [], h, _ => absurd rfl h
  | [t], _, hn => by
    show splitOnSpace (joinSpace [t]) = [t]
    rw [show joinSpace [t] = t from rfl]
    exact splitOnSpace_no_space t (hn t (by simp))
  | t :: t' :: ts, _, hn => by
    rw [show joinSpace (t :: t' :: ts) = t ++ ' ' :: joinSpace (t' :: ts)
      from rfl]
    rw [splitOnSpace_append, splitOnSpace_no_space t (hn t (by simp)),
      splitOnSpace_joinSpace (t' :: ts) (by simp)
        (fun u hu => hn u (List.mem_cons_of_mem t hu))]
    rfl

theorem joinSpace_length_le (W : Nat) :
    ∀ ts : List (List Char), ts ≠ [] → (∀ t ∈ ts, t.length ≤ W) →
      (joinSpace ts).length + 1 ≤ ts.length * (W + 1)
  | [], h, _ => absurd rfl h
  | [t], _, hw => by
    have := hw t (by simp)
    simp only [joinSpace, List.length_cons, List.length_nil]
    omega
  | t :: t' :: ts, _, hw => by
    have h1 := hw t (by simp)
    have h2 := joinSpace_length_le W (t' :: ts) (by simp)
      (fun u hu => hw u (List.mem_cons_of_mem t hu))
    rw [show joinSpace (t :: t' :: ts) = t ++ ' ' :: joinSpace (t' :: ts)
      from rfl]
    simp only [List.length_append, List.length_cons] at *
    have h3 : (ts.length + 1 + 1) * (W + 1) =
        (ts.length + 1) * (W + 1) + (W + 1) := by ring
    omega

theorem length_dropWhile_le' (p : α → Bool) (l : List α) :
    (l.dropWhile p).length ≤ l.length := by
  induction l with
  | nil => simp [List.dropWhile]
  | cons a l ih =>
    rw [List.dropWhile]
    cases p a with
    | true => exact Nat.le_succ_of_le ih
    | false => simp

theorem length_jsTrimL_le (l : List Char) : (jsTrimL l).length ≤ l.length := by
  rw [jsTrimL, List.length_reverse]
  calc ((l.dropWhile isJsWS).reverse.dropWhile isJsWS).length
      ≤ (l.dropWhile isJsWS).reverse.length := length_dropWhile_le' _ _
    _ = (l.dropWhile isJsWS).length := List.length_reverse _
    _ ≤ l.length := length_dropWhile_le' _ _

theorem jsSliceNegL_length_le (ws : List (List Char)) (k : Nat) (hk : k ≠ 0) :
    (jsSliceNegL ws k).length ≤ k := by
  rw [jsSliceNegL, if_neg hk, List.length_drop]
  omega

theorem jsSliceNegL_ne_nil (ws : List (List Char)) (k : Nat) (hk : k ≠ 0)
    (hw : ws ≠ []) : jsSliceNegL ws k ≠ [] := by
  rw [jsSliceNegL, if_neg hk]
  intro h
  have := List.length_drop (ws.length - k) ws
  rw [h] at this
  have hlen : ws.length ≠ 0 := fun h0 => hw (List.length_eq_zero.mp h0)
  simp at this
  omega

theorem jsSliceNegL_mem (ws : List (List Char)) (k : Nat) :
    ∀ t ∈ jsSliceNegL ws k, t ∈ ws := by
  intro t ht
  rw [jsSliceNegL] at ht
  by_cases hk : k = 0
  · rwa [if_pos hk] at ht
  · rw [if_neg hk] at ht
    exact (List.drop_sublist _ _).mem ht

/-! ### The amended size bound for sentence-accumulated chunks -/

/-- The largest length among a list of character lists. -/
def maxLen (ls : List (List Char)) : Nat :=
  ls.foldr (fun t m => max t.length m) 0

theorem le_maxLen (ls : List (List Char)) (t : List Char) (ht : t ∈ ls) :
    t.length ≤ maxLen ls := by
  induction ls with
  | nil => simp at ht
  | cons u ls ih =>
    rcases List.mem_cons.mp ht with h1 | h2
    · subst h1; exact Nat.le_max_left _ _
    · exact le_trans (ih h2) (Nat.le_max_right _ _)

/-- The trimmed sentences the chunk loop iterates over. -/
def trimmedSentences (text : String) : List (List Char) :=
  (sentencesOf (cleanText text)).map jsTrimL

/-- Length of the longest trimmed sentence of the cleaned text. -/
def sentMax (text : String) : Nat := maxLen (trimmedSentences text)

/-- Length of the longest space-delimited token of any trimmed sentence. -/
def wordMax (text : String) : Nat :=
  (trimmedSentences text).foldr (fun t m => max (maxLen (splitOnSpace t)) m) 0

theorem le_foldr_max (f : List Char → Nat) :
    ∀ (ls : List (List Char)) (s : List Char), s ∈ ls →
      f s ≤ ls.foldr (fun t m => max (f t) m) 0
  | [], s, hs => by simp at hs
  | u :: ls, s, hs => by
    rcases List.mem_cons.mp hs with he | hm
    · subst he; exact Nat.le_max_left _ _
    · exact le_trans (le_foldr_max f ls s hm) (Nat.le_max_right _ _)

theorem wordMax_spec (text : String) (s : List Char)
    (hs : s ∈ trimmedSentences text) :
    ∀ t ∈ splitOnSpace s, t.length ≤ wordMax text := by
  intro t ht
  exact le_trans (le_maxLen _ _ ht)
    (le_foldr_max (fun u => maxLen (splitOnSpace u)) _ s hs)

/-- The provable bound on the length of a sentence-accumulated chunk. -/
def chunkBound (maxSize k W S : Nat) : Nat :=
  max (maxSize + 1) (k * (W + 1) + S)

/-- The loop invariant of the sentence-accumulation fold. -/
def ChunkInv (maxSize k W S : Nat) (st : ChunkState) : Prop :=
  (∀ c ∈ st.chunks, c.length ≤ chunkBound maxSize k W S) ∧
  st.cur.length ≤ chunkBound maxSize k W S ∧
  (∀ t ∈ splitOnSpace st.cur, t.length ≤ W)

theorem overlapSeed_facts (cur : List Char) (k W : Nat) (hk : k ≠ 0)
    (htok : ∀ t ∈ splitOnSpace cur, t.length ≤ W) :
    (overlapSeed cur k).length + 1 ≤ k * (W + 1) ∧
    splitOnSpace (overlapSeed cur k) = jsSliceNegL (splitOnSpace cur) k := by
  have hne : jsSliceNegL (splitOnSpace cur) k ≠ [] :=
    jsSliceNegL_ne_nil _ _ hk (splitOnSpace_ne_nil cur)
  have hmem : ∀ t ∈ jsSliceNegL (splitOnSpace cur) k, t ∈ splitOnSpace cur :=
    jsSliceNegL_mem _ _
  have hW : ∀ t ∈ jsSliceNegL (splitOnSpace cur) k, t.length ≤ W :=
    fun t ht => htok t (hmem t ht)
  have hnosp : ∀ t ∈ jsSliceNegL (splitOnSpace cur) k, ' ' ∉ t :=
    fun t ht => space_not_mem_splitOnSpace cur t (hmem t ht)
  constructor
  · calc (overlapSeed cur k).length + 1
        ≤ (jsSliceNegL (splitOnSpace cur) k).length * (W + 1) :=
          joinSpace_length_le W _ hne hW
      _ ≤ k * (W + 1) :=
          Nat.mul_le_mul_right _ (jsSliceNegL_length_le _ _ hk)
  · exact splitOnSpace_joinSpace _ hne hnosp

theorem chunkStep_inv (maxSize k W S : Nat) (hk : k ≠ 0)
    (st : ChunkState) (sentence : List Char)
    (hS : (jsTrimL sentence).length ≤ S)
    (hW : ∀ t ∈ splitOnSpace (jsTrimL sentence), t.length ≤ W)
    (hinv : ChunkInv maxSize k W S st) :
    ChunkInv maxSize k W S (chunkStep maxSize k st sentence) := by
  obtain ⟨hchunks, hcur, hcurTok⟩ := hinv
  rw [chunkStep]
  by_cases hcond :
      st.cur.length + (jsTrimL sentence).length > maxSize ∧ st.cur.length > 0
  · rw [if_pos hcond]
    obtain ⟨hseedLen, hseedTok⟩ := overlapSeed_facts st.cur k W hk hcurTok
    refine ⟨?_, ?_, ?_⟩
    · intro c hc
      rcases List.mem_append.mp hc with h1 | h2
      · exact hchunks c h1
      · rcases List.mem_singleton.mp h2 with rfl
        exact le_trans (length_jsTrimL_le st.cur) hcur
    · show (overlapSeed st.cur k ++ ' ' :: jsTrimL sentence).length ≤ _
      rw [List.length_append, List.length_cons]
      have : (overlapSeed st.cur k).length + ((jsTrimL sentence).length + 1)
          ≤ k * (W + 1) + S := by omega
      exact le_trans this (Nat.le_max_right _ _)
    · show ∀ t ∈ splitOnSpace (overlapSeed st.cur k ++ ' ' :: jsTrimL sentence),
        t.length ≤ W
      rw [splitOnSpace_append, hseedTok]
      intro t ht
      rcases List.mem_append.mp ht with h1 | h2
      · exact hcurTok t (jsSliceNegL_mem _ _ t h1)
      · exact hW t h2
  · rw [if_neg hcond]
    by_cases hz : st.cur.length = 0
    · rw [if_pos hz]
      refine ⟨hchunks, ?_, hW⟩
      calc (jsTrimL sentence).length ≤ S := hS
        _ ≤ k * (W + 1) + S := Nat.le_add_left _ _
        _ ≤ chunkBound maxSize k W S := Nat.le_max_right _ _
    · rw [if_neg hz]
      have hpos : st.cur.length > 0 := Nat.pos_of_ne_zero hz
      have hle : st.cur.length + (jsTrimL sentence).length ≤ maxSize := by
        rcases not_and_or.mp hcond with h1 | h2
        · omega
        · exact absurd hpos h2
      refine ⟨hchunks, ?_, ?_⟩
      · show (st.cur ++ ' ' :: jsTrimL sentence).length ≤ _
        rw [List.length_append, List.length_cons]
        have : st.cur.length + ((jsTrimL sentence).length + 1) ≤ maxSize + 1 :=
          by omega
        exact le_trans this (Nat.le_max_left _ _)
      · show ∀ t ∈ splitOnSpace (st.cur ++ ' ' :: jsTrimL sentence),
          t.length ≤ W
        rw [splitOnSpace_append]
        intro t ht
        rcases List.mem_append.mp ht with h1 | h2
        · exact hcurTok t h1
        · exact hW t h2

theorem foldl_chunkStep_inv (maxSize k W S : Nat) (hk : k ≠ 0) :
    ∀ (sents : List (List Char)) (st : ChunkState),
      (∀ s ∈ sents, (jsTrimL s).length ≤ S ∧
        ∀ t ∈ splitOnSpace (jsTrimL s), t.length ≤ W) →
      ChunkInv maxSize k W S st →
      ChunkInv maxSize k W S (sents.foldl (chunkStep maxSize k) st)
  | [], st, _, hinv => hinv
  | s :: sents, st, hfacts, hinv => by
    have hs := hfacts s (by simp)
    exact foldl_chunkStep_inv maxSize k W S hk sents _
      (fun u hu => hfacts u (List.mem_cons_of_mem s hu))
      (chunkStep_inv maxSize k W S hk st s hs.1 hs.2 hinv)

theorem sentenceChunks_length_le (text : String) (maxSize overlap : Nat)
    (hk : overlap / 10 ≠ 0) :
    ∀ c ∈ sentenceChunks text maxSize overlap,
      c.length ≤ chunkBound maxSize (overlap / 10) (wordMax text)
        (sentMax text) := by
  set k := overlap / 10
  set W := wordMax text
  set S := sentMax text
  have hfacts : ∀ s ∈ sentencesOf (cleanText text),
      (jsTrimL s).length ≤ S ∧ ∀ t ∈ splitOnSpace (jsTrimL s), t.length ≤ W := by
    intro s hs
    have hmem : jsTrimL s ∈ trimmedSentences text := List.mem_map_of_mem _ hs
    exact ⟨le_maxLen _ _ hmem, wordMax_spec text (jsTrimL s) hmem⟩
  have hinit : ChunkInv maxSize k W S ⟨[], []⟩ := by
    refine ⟨by simp, by simp, ?_⟩
    intro t ht
    simp [splitOnSpace] at ht
    simp [ht]
  have hinv := foldl_chunkStep_inv maxSize k W S hk
    (sentencesOf (cleanText text)) ⟨[], []⟩ hfacts hinit
  intro c hc
  rw [sentenceChunks] at hc
  rcases List.mem_append.mp hc with h1 | h2
  · exact hinv.1 c h1
  · by_cases hnz : (jsTrimL ((sentencesOf (cleanText text)).foldl
        (chunkStep maxSize k) ⟨[], []⟩).cur).length > 0
    · rw [if_pos hnz] at h2
      rcases List.mem_singleton.mp h2 with rfl
      exact le_trans (length_jsTrimL_le _) hinv.2.1
    · rw [if_neg hnz] at h2
      simp at h2

/-- Claim C3 as amended: when the sentence path produces the chunks (it does
whenever it is non-empty) and `overlap ≥ 10`, every chunk's length is at most
`max (maxSize + 1) (⌊overlap/10⌋·(W+1) + S)` where `W` is the longest
space-delimited token and `S` the longest trimmed sentence of the cleaned
text.  Chunks can exceed `maxSize` itself both because the loop's size test
ignores the joining space and because the word-granularity overlap seed is
carried in on top of the limit. -/
theorem C3_chunk_size_bound (fuel : Nat) (text : String)
    (maxSize overlap : Nat) (cs : List String)
    (hk : overlap / 10 ≠ 0)
    (hne : sentenceChunks text maxSize overlap ≠ [])
    (hres : splitTextIntoChunks fuel text maxSize overlap = some cs) :
    ∀ c ∈ cs, c.length ≤ chunkBound maxSize (overlap / 10) (wordMax text)
      (sentMax text) := by
  have hlen : (sentenceChunks text maxSize overlap).length ≠ 0 :=
    fun h => hne (List.length_eq_zero.mp h)
  rw [splitTextIntoChunks] at hres
  rw [if_neg (by intro hcontra; exact hlen hcontra.1)] at hres
  have hcs : cs = (sentenceChunks text maxSize overlap).map String.mk :=
    (Option.some_inj.mp hres).symm
  subst hcs
  intro c hc
  rcases List.mem_map.mp hc with ⟨l, hl, rfl⟩
  have hb := sentenceChunks_length_le text maxSize overlap hk l hl
  simpa [String.length] using hb

/-- Witness for the amended C3 at the counterexample input: the single chunk
`"aaaa bbbbbb"` (length 11) respects the bound
`max (10+1) (20·(6+1)+6) = 146`. -/
theorem C3_chunk_size_bound_witness :
    (200 / 10 ≠ 0) ∧ sentenceChunks c3Text 10 200 ≠ [] ∧
    splitTextIntoChunks 1 c3Text 10 200 = some ["aaaa bbbbbb"] ∧
    ∀ c ∈ ["aaaa bbbbbb"],
      String.length c ≤ chunkBound 10 (200 / 10) (wordMax c3Text)
        (sentMax c3Text) :=
  ⟨by decide, by decide, by decide,
    C3_chunk_size_bound 1 c3Text 10 200 ["aaaa bbbbbb"] (by decide)
      (by decide) (by decide)⟩

/-! ## vectorService.js — similarity search and its two fallback paths -/

/-- A row of the `document_chunks` table. -/
structure ChunkRow where
  document_id : Nat
  chunk_text : String
  chunk_index : Nat
deriving DecidableEq

/-- A row of the `documents` table (the fields the services read). -/
structure DocRow where
  id : Nat
  user_id : Nat
  original_name : String
  processed : Bool
deriving DecidableEq

/-- An entry of the Chroma collection: the stored passage text plus the
metadata written by `storeInVectorDB`. -/
structure IndexEntry where
  document_id : Nat
  chunk_index : Nat
  text : String
deriving DecidableEq

/-- The external Chroma collection, modelled by its contract: its stored
entries and the distance it assigns an entry with respect to a query. -/
structure Collection where
  entries : List IndexEntry
  dist : String → IndexEntry → ℚ

/-- Generic insertion into a list sorted by `le`. -/
def insortBy (le : α → α → Bool) (a : α) : List α → List α
  | [] => [a]
  | b :: l => if le a b then a :: b :: l else b :: insortBy le a l

/-- Generic insertion sort. -/
def sortBy (le : α → α → Bool) : List α → List α
  | [] => []
  | a :: l => insortBy le a (sortBy le l)

theorem mem_insortBy (le : α → α → Bool) (a : α) (l : List α) (x : α) :
    x ∈ insortBy le a l ↔ x = a ∨ x ∈ l := by
  induction l with
  | nil => simp [insortBy]
  | cons b l ih =>
    rw [insortBy]
    by_cases h : le a b
    · simp [h]
    · simp only [if_neg h, List.mem_cons, ih]
      tauto

theorem mem_sortBy (le : α → α → Bool) (l : List α) (x : α) :
    x ∈ sortBy le l ↔ x ∈ l := by
  induction l with
  | nil => simp [sortBy]
  | cons a l ih =>
    rw [sortBy, mem_insortBy]
    simp [ih]

/-- `collection.query({queryEmbeddings, nResults, where})` per the vector
index's contract: restrict to the `where`-filtered entries, rank by ascending
distance to the query, truncate to `nResults`. -/
def Collection.query (c : Collection) (q : String) (nResults : Nat)
    (whereDoc : Option Nat) : List (IndexEntry × ℚ) :=
  (sortBy (fun a b : IndexEntry × ℚ => decide (a.2 ≤ b.2))
    (((match whereDoc with
      | some d => c.entries.filter fun e => decide (e.document_id = d)
      | none => c.entries : List IndexEntry)).map fun e => (e, c.dist q e))).take
    nResults

/-- Environment of a `searchSimilarChunks` call: the lazily initialised
collection (`none` = ChromaDB unavailable), whether the primary query path
throws, and the SQLite tables behind `dbUtils`. -/
structure Env where
  collection : Option Collection
  queryThrows : Bool
  chunkRows : List ChunkRow
  documents : List DocRow

/-- `dbUtils.getDocumentChunks`: `SELECT * FROM document_chunks WHERE
document_id = ? ORDER BY chunk_index`. -/
def dbGetDocumentChunks (env : Env) (documentId : Nat) : List ChunkRow :=
  sortBy (fun a b => decide (a.chunk_index ≤ b.chunk_index))
    (env.chunkRows.filter fun r => decide (r.document_id = documentId))

/-- The per-query result record built by `searchSimilarChunks`. -/
structure RetrievalResult where
  text : String
  metaDocId : Option Nat
  metaChunkIndex : Nat
  similarity : ℚ
  documentId : Option Nat
  chunkIndex : Nat
deriving DecidableEq, Inhabited

/-- The rows the database fallback reads:
`documentId ? await dbUtils.getDocumentChunks(documentId) : []`. -/
def fallbackRows (env : Env) (documentId : Option Nat) : List ChunkRow :=
  match documentId with
  | some d => dbGetDocumentChunks env d
  | none => []

/-- The database fallback of `searchSimilarChunks` (no-collection path with
`base = 8/10`, lines 117–131; catch path with `base = 7/10`, lines 163–178):
take the scoped rows up to `topK` and attach the synthetic descending scores
`base − rank/10`. -/
def fallbackResults (env : Env) (documentId : Option Nat) (topK : Nat)
    (base : ℚ) : List RetrievalResult :=
  (idxFrom 0 ((fallbackRows env documentId).take topK)).map fun p =>
    { text := p.2.chunk_text
      metaDocId := documentId
      metaChunkIndex := p.2.chunk_index
      similarity := base - (p.1 : ℚ) * (1 / 10)
      documentId := documentId
      chunkIndex := p.2.chunk_index }

/-- `searchSimilarChunks` of `vectorService.js` (lines 113–179): primary path
through the collection (`similarity = 1 − distance`), database fallback when
the collection is unavailable, catch-all database fallback when the primary
path throws. -/
def searchSimilarChunks (env : Env) (query : String) (documentId : Option Nat)
    (topK : Nat) : List RetrievalResult :=
  match env.collection with
  | none => fallbackResults env documentId topK (8 / 10)
  | some c =>
    if env.queryThrows then fallbackResults env documentId topK (7 / 10)
    else
      (c.query query topK documentId).map fun p =>
        { text := p.1.text
          metaDocId := some p.1.document_id
          metaChunkIndex := p.1.chunk_index
          similarity := 1 - p.2
          documentId := some p.1.document_id
          chunkIndex := p.1.chunk_index }

/-! ### Provenance lemmas for the two search paths -/

theorem idxFrom_mem {l : List α} {n : Nat} {p : Nat × α}
    (h : p ∈ idxFrom n l) : p.2 ∈ l ∧ n ≤ p.1 ∧ p.1 < n + l.length := by
  induction l generalizing n with
  | nil => simp [idxFrom] at h
  | cons a l ih =>
    rw [idxFrom] at h
    rcases List.mem_cons.mp h with h1 | h2
    · subst h1
      refine ⟨List.mem_cons_self a l, le_refl n, ?_⟩
      simp
    · obtain ⟨hm, hle, hlt⟩ := ih h2
      refine ⟨List.mem_cons_of_mem a hm, by omega, ?_⟩
      simp only [List.length_cons]
      omega

theorem primary_results_spec (c : Collection) (q : String) (topK : Nat)
    (whereDoc : Option Nat) :
    ∀ p ∈ Collection.query c q topK whereDoc,
      p.1 ∈ c.entries ∧ p.2 = c.dist q p.1 ∧
        ∀ A, whereDoc = some A → p.1.document_id = A := by
  intro p hp
  rw [Collection.query.eq_def] at hp
  have hp' := List.mem_of_mem_take hp
  rw [mem_sortBy] at hp'
  rcases List.mem_map.mp hp' with ⟨e, he, rfl⟩
  cases whereDoc with
  | none => exact ⟨he, rfl, fun A hA => by cases hA⟩
  | some d =>
    have := List.mem_filter.mp he
    refine ⟨this.1, rfl, fun A hA => ?_⟩
    cases hA
    exact of_decide_eq_true this.2

theorem fallbackResults_spec (env : Env) (documentId : Option Nat)
    (topK : Nat) (base : ℚ) :
    ∀ r ∈ fallbackResults env documentId topK base,
      r.documentId = documentId ∧
      (∃ i, i < topK ∧ r.similarity = base - (i : ℚ) * (1 / 10)) ∧
      ∃ d row, documentId = some d ∧ row ∈ env.chunkRows ∧
        row.document_id = d ∧ r.text = row.chunk_text ∧
        r.chunkIndex = row.chunk_index := by
  intro r hr
  simp only [fallbackResults] at hr
  rcases List.mem_map.mp hr with ⟨p, hp, rfl⟩
  obtain ⟨hmem, -, hlt⟩ := idxFrom_mem hp
  cases documentId with
  | none => simp only [fallbackRows, List.take_nil] at hmem; cases hmem
  | some d =>
    simp only [fallbackRows] at hmem hlt
    have hmem' := List.mem_of_mem_take hmem
    simp only [dbGetDocumentChunks] at hmem'
    rw [mem_sortBy] at hmem'
    have hrow := List.mem_filter.mp hmem'
    refine ⟨rfl, ⟨p.1, ?_, rfl⟩, d, p.2, rfl, hrow.1,
      of_decide_eq_true hrow.2, rfl, rfl⟩
    have htake : (List.take topK (dbGetDocumentChunks env d)).length ≤ topK :=
      List.length_take_le topK _
    omega

/-! ### Positional lemmas for the fallback scores -/

theorem idxFrom_length (l : List α) (n : Nat) :
    (idxFrom n l).length = l.length := by
  induction l generalizing n with
  | nil => rfl
  | cons a l ih => simp [idxFrom, ih]

theorem getD_mem (l : List α) (d : α) (j : Nat) (h : j < l.length) :
    l.getD j d ∈ l := by
  rw [getD_eq_getElem_of_lt l d h]
  exact List.getElem_mem h

theorem idxFrom_getD (l : List α) (n : Nat) (j : Nat) (d : Nat × α)
    (h : j < l.length) : ((idxFrom n l).getD j d).1 = n + j := by
  induction l generalizing n j with
  | nil => simp at h
  | cons a l ih =>
    cases j with
    | zero => simp [idxFrom, List.getD]
    | succ j =>
      have := ih (n + 1) j (by simpa using h)
      simp only [idxFrom, List.getD_cons_succ]
      rw [this]
      omega

theorem fallbackResults_getD_similarity (env : Env) (documentId : Option Nat)
    (topK : Nat) (base : ℚ) (j : Nat) (dflt : RetrievalResult)
    (h : j < (fallbackResults env documentId topK base).length) :
    ((fallbackResults env documentId topK base).getD j dflt).similarity =
      base - (j : ℚ) * (1 / 10) := by
  have hj' : j < (idxFrom 0 ((fallbackRows env documentId).take topK)).length :=
    by simpa [fallbackResults] using h
  have hjl : j < ((fallbackRows env documentId).take topK).length := by
    rwa [idxFrom_length] at hj'
  rw [getD_eq_getElem_of_lt _ dflt h]
  simp only [fallbackResults, List.getElem_map]
  have hfst : ((idxFrom 0 ((fallbackRows env documentId).take topK)).getD j
      (0, ⟨0, "", 0⟩)).1 = 0 + j :=
    idxFrom_getD _ 0 j _ hjl
  rw [getD_eq_getElem_of_lt _ _ hj'] at hfst
  show base - _ * (1 / 10) = _
  rw [hfst]
  norm_num

/-! ### C4 — similarity scores are not always in [0,1] -/

/-- A database of ten chunk rows for document 1, no vector index. -/
def c4Env : Env :=
  { collection := none
    queryThrows := false
    chunkRows := (List.range 10).map fun i =>
      { document_id := 1, chunk_text := "t", chunk_index := i }
    documents := [] }

/-- Claim C4 (refuted): with the collection unavailable and `topK = 10`
against ten stored chunks of document 1, the fallback's synthetic score at
rank 9 is `0.8 − 9·0.1 = −0.1 < 0`, outside `[0,1]`. -/
theorem C4_counterexample :
    ∃ r ∈ searchSimilarChunks c4Env "q" (some 1) 10, r.similarity < 0 := by
  have hsearch : searchSimilarChunks c4Env "q" (some 1) 10 =
      fallbackResults c4Env (some 1) 10 (8 / 10) := rfl
  have hlen : 9 < (fallbackResults c4Env (some 1) 10 (8 / 10)).length := by
    decide
  refine ⟨(fallbackResults c4Env (some 1) 10 (8 / 10)).getD 9 default, ?_, ?_⟩
  · rw [hsearch]
    exact getD_mem _ default 9 hlen
  · rw [fallbackResults_getD_similarity c4Env (some 1) 10 (8 / 10) 9 default
      hlen]
    norm_num

/-- Claim C4 as amended: scores lie in `[0,1]` on the primary path exactly
when the index's distances lie in `[0,1]`, and on the two database fallback
paths when at most 9 (no-collection path, base 0.8) resp. 8 (catch path,
base 0.7) results are requested. -/
theorem C4_similarity_range (env : Env) (q : String)
    (documentId : Option Nat) (topK : Nat) :
    (∀ c, env.collection = some c → env.queryThrows = false →
      (∀ e ∈ c.entries, 0 ≤ c.dist q e ∧ c.dist q e ≤ 1) →
      ∀ r ∈ searchSimilarChunks env q documentId topK,
        0 ≤ r.similarity ∧ r.similarity ≤ 1) ∧
    (env.collection = none → topK ≤ 9 →
      ∀ r ∈ searchSimilarChunks env q documentId topK,
        0 ≤ r.similarity ∧ r.similarity ≤ 1) ∧
    (∀ c, env.collection = some c → env.queryThrows = true → topK ≤ 8 →
      ∀ r ∈ searchSimilarChunks env q documentId topK,
        0 ≤ r.similarity ∧ r.similarity ≤ 1) := by
  refine ⟨?_, ?_, ?_⟩
  · intro c hc hq hdist r hr
    simp only [searchSimilarChunks.eq_def, hc, hq, Bool.false_eq_true,
      if_false] at hr
    rcases List.mem_map.mp hr with ⟨p, hp, rfl⟩
    obtain ⟨hmem, hdval, -⟩ := primary_results_spec c q topK documentId p hp
    obtain ⟨h0, h1⟩ := hdist p.1 hmem
    constructor
    · show (0 : ℚ) ≤ 1 - p.2
      rw [hdval]
      linarith
    · show (1 : ℚ) - p.2 ≤ 1
      rw [hdval]
      linarith
  · intro hc htop r hr
    simp only [searchSimilarChunks.eq_def, hc] at hr
    obtain ⟨-, ⟨i, hik, hsim⟩, -⟩ :=
      fallbackResults_spec env documentId topK (8 / 10) r hr
    have hi : (i : ℚ) ≤ 8 := by exact_mod_cast (by omega : i ≤ 8)
    have hi0 : (0 : ℚ) ≤ (i : ℚ) := Nat.cast_nonneg i
    rw [hsim]
    constructor <;> linarith
  · intro c hc hq htop r hr
    simp only [searchSimilarChunks.eq_def, hc, hq, if_true] at hr
    obtain ⟨-, ⟨i, hik, hsim⟩, -⟩ :=
      fallbackResults_spec env documentId topK (7 / 10) r hr
    have hi : (i : ℚ) ≤ 7 := by exact_mod_cast (by omega : i ≤ 7)
    have hi0 : (0 : ℚ) ≤ (i : ℚ) := Nat.cast_nonneg i
    rw [hsim]
    constructor <;> linarith

/-- Witness for the amended C4: with `topK = 5` on the no-collection fallback
path, the top result's score is in `[0,1]`. -/
theorem C4_similarity_range_witness :
    0 ≤ ((searchSimilarChunks c4Env "q" (some 1) 5).getD 0
      default).similarity ∧
    ((searchSimilarChunks c4Env "q" (some 1) 5).getD 0 default).similarity ≤
      1 :=
  (C4_similarity_range c4Env "q" (some 1) 5).2.1 rfl (by omega) _
    (getD_mem _ default 0 (by decide))

/-! ### C5 — `documentScope = null` is not restricted to the requesting
user, and the fallback path searches nothing -/

/-- A collection holding one passage of document 2, which (per the
`documents` table) belongs to user 2 — not to the requesting user 1. -/
def c5Coll : Collection :=
  { entries := [{ document_id := 2, chunk_index := 0, text := "secret" }]
    dist := fun _ _ => 0 }

/-- Environment for the primary-path half of the C5 counterexample. -/
def c5Env : Env :=
  { collection := some c5Coll
    queryThrows := false
    chunkRows := []
    documents :=
      [{ id := 2, user_id := 2, original_name := "other.pdf",
         processed := true }] }

/-- Environment for the fallback half of the C5 counterexample: the
collection is unavailable and user 1 has an indexed chunk of document 1. -/
def c5EnvNoColl : Env :=
  { collection := none
    queryThrows := false
    chunkRows := [{ document_id := 1, chunk_text := "mine", chunk_index := 0 }]
    documents :=
      [{ id := 1, user_id := 1, original_name := "mine.pdf",
         processed := true }] }

/-- Claim C5 (refuted), part 1: with `documentScope = null` the primary path
returns the document-2 passage although document 2 belongs to user 2, not to
the requesting user 1 — `searchSimilarChunks` takes no user at all, so no
ownership restriction exists.  Part 2: with the collection unavailable, the
null-scope fallback (`documentId ? … : []`) returns nothing even though the
requesting user has indexed content. -/
theorem C5_counterexample :
    ((searchSimilarChunks c5Env "q" none 5).map RetrievalResult.documentId =
      [some 2] ∧
    (c5Env.documents.find? fun dr => decide (dr.id = 2)).map DocRow.user_id =
      some 2 ∧ (2 : Nat) ≠ 1) ∧
    (searchSimilarChunks c5EnvNoColl "q" none 5 = [] ∧
      c5EnvNoColl.chunkRows ≠ []) := by
  refine ⟨⟨?_, by decide, by decide⟩, ⟨?_, by decide⟩⟩
  · rfl
  · rfl

/-- Claim C5 as amended: with a `null` scope, the two database fallback paths
return the empty list (they search nothing at all), and the primary path
draws from the whole collection with no per-user restriction — every
result corresponds to some entry of the collection, whatever user owns it. -/
theorem C5_null_scope (env : Env) (q : String) (topK : Nat) :
    (env.collection = none → searchSimilarChunks env q none topK = []) ∧
    (env.queryThrows = true → searchSimilarChunks env q none topK = []) ∧
    (∀ c, env.collection = some c → env.queryThrows = false →
      ∀ r ∈ searchSimilarChunks env q none topK,
        ∃ e, e ∈ c.entries ∧ r.text = e.text ∧
          r.documentId = some e.document_id) := by
  have hfb : ∀ base, fallbackResults env none topK base = [] := by
    intro base
    simp [fallbackResults, fallbackRows, idxFrom]
  refine ⟨?_, ?_, ?_⟩
  · intro hc
    simp only [searchSimilarChunks.eq_def, hc]
    exact hfb _
  · intro hq
    cases hcoll : env.collection with
    | none =>
      simp only [searchSimilarChunks.eq_def, hcoll]
      exact hfb _
    | some c =>
      simp only [searchSimilarChunks.eq_def, hcoll, hq, if_true]
      exact hfb _
  · intro c hc hq r hr
    simp only [searchSimilarChunks.eq_def, hc, hq, Bool.false_eq_true,
      if_false] at hr
    rcases List.mem_map.mp hr with ⟨p, hp, rfl⟩
    obtain ⟨hmem, -, -⟩ := primary_results_spec c q topK none p hp
    exact ⟨p.1, hmem, rfl, rfl⟩

/-- Witness for the amended C5, using both halves: the no-collection
environment returns nothing for a null scope, and in the primary-path
environment the first result corresponds to an entry of the collection. -/
theorem C5_null_scope_witness :
    searchSimilarChunks c5EnvNoColl "q" none 3 = [] ∧
    ∃ e, e ∈ c5Coll.entries ∧
      ((searchSimilarChunks c5Env "q" none 5).getD 0 default).text = e.text ∧
      ((searchSimilarChunks c5Env "q" none 5).getD 0 default).documentId =
        some e.document_id :=
  ⟨(C5_null_scope c5EnvNoColl "q" 3).1 rfl,
    (C5_null_scope c5Env "q" 5).2.2 c5Coll rfl rfl _
      (getD_mem _ default 0 (by decide))⟩

/-! ### C6 — document-scoped retrieval stays inside the scoped document -/

/-- `r` was built from content of document `A` as recorded in the
environment: a `document_chunks` row on the fallback paths, a collection
entry on the primary path. -/
def resultFromDoc (env : Env) (A : Nat) (r : RetrievalResult) : Prop :=
  (∃ row, row ∈ env.chunkRows ∧ row.document_id = A ∧
    r.text = row.chunk_text ∧ r.chunkIndex = row.chunk_index) ∨
  (∃ c e, env.collection = some c ∧ e ∈ c.entries ∧ e.document_id = A ∧
    r.text = e.text ∧ r.chunkIndex = e.chunk_index)

/-- Claim C6: every result of a retrieval scoped to document `A` carries
`documentId = A` and originates from document `A`'s content, on the primary
path (the `where` filter) and on both database fallback paths (the
`getDocumentChunks(A)` query) alike. -/
theorem C6_scoped_isolation (env : Env) (q : String) (A : Nat) (topK : Nat) :
    ∀ r ∈ searchSimilarChunks env q (some A) topK,
      r.documentId = some A ∧ resultFromDoc env A r := by
  intro r hr
  cases hcoll : env.collection with
  | none =>
    simp only [searchSimilarChunks.eq_def, hcoll] at hr
    obtain ⟨hdoc, -, d, row, hd, hrow, hrdoc, htext, hidx⟩ :=
      fallbackResults_spec env (some A) topK (8 / 10) r hr
    cases hd
    exact ⟨hdoc, Or.inl ⟨row, hrow, hrdoc, htext, hidx⟩⟩
  | some c =>
    by_cases hq : env.queryThrows
    · simp only [searchSimilarChunks.eq_def, hcoll, hq, if_true] at hr
      obtain ⟨hdoc, -, d, row, hd, hrow, hrdoc, htext, hidx⟩ :=
        fallbackResults_spec env (some A) topK (7 / 10) r hr
      cases hd
      exact ⟨hdoc, Or.inl ⟨row, hrow, hrdoc, htext, hidx⟩⟩
    · have hq' : env.queryThrows = false := by simpa using hq
      simp only [searchSimilarChunks.eq_def, hcoll, hq', Bool.false_eq_true,
        if_false] at hr
      rcases List.mem_map.mp hr with ⟨p, hp, rfl⟩
      obtain ⟨hmem, -, hwhere⟩ := primary_results_spec c q topK (some A) p hp
      exact ⟨by simp [hwhere A rfl], Or.inr ⟨c, p.1, hcoll, hmem,
        hwhere A rfl, rfl, rfl⟩⟩

/-- Witness for C6: in the fallback environment, the single result of a
search scoped to document 1 carries `documentId = 1` and stems from the
stored document-1 row. -/
theorem C6_scoped_isolation_witness :
    ((searchSimilarChunks c5EnvNoColl "q" (some 1) 5).getD 0
        default).documentId = some 1 ∧
    resultFromDoc c5EnvNoColl 1
      ((searchSimilarChunks c5EnvNoColl "q" (some 1) 5).getD 0 default) :=
  C6_scoped_isolation c5EnvNoColl "q" 1 5 _
    (getD_mem _ default 0 (by decide))

/-! ## aiService.js — response composition -/

/-- Outcome of a `model.generateContent` call. -/
inductive GenOutcome where
  | ok (text : String)
  | thrown (msg : String)
deriving DecidableEq

/-- A conversation turn as passed in `conversationHistory`. -/
structure Msg where
  role : String
  content : String
deriving DecidableEq

/-- Environment of the composition layer: the retrieval environment plus the
external generation service. -/
structure AIEnv where
  search : Env
  generate : String → GenOutcome

/-- The last `n` elements (JS `arr.slice(-n)` for fixed positive `n`). -/
def lastN (n : Nat) (l : List α) : List α := l.drop (l.length - n)

/-- `conversationHistory.slice(-n).map(msg => role + ": " + content)
.join('\n')`, or the empty string for an empty history. -/
def historyContext (history : List Msg) (n : Nat) : String :=
  if history.length > 0 then
    String.intercalate "\x0a"
      ((lastN n history).map fun m => m.role ++ ": " ++ m.content)
  else ""

/-- `relevantChunks.map((chunk, index) => "[Context " + (index+1) + "]: " +
chunk.text).join('\n\n')`. -/
def contextOf (chunks : List RetrievalResult) : String :=
  String.intercalate "\x0a\x0a" ((idxFrom 0 chunks).map fun p =>
    "[Context " ++ toString (p.1 + 1) ++ "]: " ++ p.2.text)

/-- A `sources` array element (the document path populates `chunkIndex`, the
general path `documentId`). -/
structure SourceRef where
  text : String
  chunkIndex : Option Nat
  documentId : Option Nat
  similarity : ℚ
deriving DecidableEq

/-- The object both composition functions resolve with. -/
structure AIResult where
  response : String
  sources : List SourceRef
  confidence : Int
  documentName : Option String
  errorMsg : Option String
deriving DecidableEq

/-- JS `Math.round` (half away from zero is half toward +inf for JS). -/
def jsRound (q : ℚ) : Int := ⌊q + 1 / 2⌋

/-- The fixed "no grounding" template of `generateDocumentResponse`
(lines 27–33). -/
def noGroundingMsg : String :=
  "I couldn\x27t find relevant information in the document to answer your question. Could you try rephrasing your question or asking about a different topic from the document?"

/-- The catch-path apology of `generateDocumentResponse`. -/
def docErrorMsg : String :=
  "I\x27m sorry, I encountered an error while processing your question. Please try again or rephrase your question."

/-- The catch-path apology of `generateGeneralResponse`. -/
def generalErrorMsg : String :=
  "I\x27m sorry, I encountered an error while processing your question. Please try again."

/-- The document-scoped prompt template (lines 50–68). -/
def docPrompt (documentName context histCtx query : String) : String :=
  "You are Docu Genie, an intelligent assistant that helps users understand their documents. You have access to content from \"" ++
  documentName ++
  "\" and should provide helpful, accurate answers based on the document content.\x0a\x0aContext from the document:\x0a" ++
  context ++ "\x0a\x0a" ++
  (if histCtx ≠ "" then "Previous conversation:\x0a" ++ histCtx ++ "\x0a"
    else "") ++
  "\x0a\x0aCurrent question: " ++ query ++
  "\x0a\x0aInstructions:\x0a1. Answer the question based primarily on the provided document context\x0a2. Be conversational and educational in your tone\x0a3. If the context doesn\x27t fully answer the question, acknowledge this and provide what information you can\x0a4. Use examples from the document when helpful\x0a5. If asked to explain concepts, break them down clearly\x0a6. Keep responses focused and concise (under 500 words)\x0a7. Don\x27t make up information that\x27s not in the provided context\x0a\x0aAnswer:"

/-- `document ? document.original_name : 'the document'` after
`dbUtils.getDocumentById`. -/
def docNameOf (env : AIEnv) (documentId : Nat) : String :=
  match env.search.documents.find? fun dr => decide (dr.id = documentId) with
  | some doc => doc.original_name
  | none => "the document"

/-- The prompt `generateDocumentResponse` sends for a given call. -/
def docPromptOf (env : AIEnv) (query : String) (documentId : Nat)
    (history : List Msg) : String :=
  docPrompt (docNameOf env documentId)
    (contextOf (searchSimilarChunks env.search query (some documentId) 5))
    (historyContext history 6) query

/-- `chunk.text.substring(0, 200) + '...'`. -/
def sourceText (s : String) : String := String.mk (s.data.take 200) ++ "..."

/-- `generateDocumentResponse` of `aiService.js` (lines 22–103).  The second
component records the prompts passed to the generation service, so "the
generation service is not invoked" is `= []`. -/
def generateDocumentResponse (env : AIEnv) (query : String)
    (documentId : Nat) (history : List Msg) : AIResult × List String :=
  let relevantChunks := searchSimilarChunks env.search query (some documentId) 5
  if relevantChunks.length = 0 then
    ({ response := noGroundingMsg, sources := [], confidence := 0,
       documentName := none, errorMsg := none }, [])
  else
    match env.generate (docPromptOf env query documentId history) with
    | .ok text =>
      ({ response := text
         sources := relevantChunks.map fun ch =>
           { text := sourceText ch.text, chunkIndex := some ch.chunkIndex,
             documentId := none, similarity := ch.similarity }
         confidence := jsRound ((if relevantChunks.length > 0 then
           (relevantChunks.map RetrievalResult.similarity).sum /
             (relevantChunks.length : ℚ) else 0) * 100)
         documentName := some (docNameOf env documentId)
         errorMsg := none }, [docPromptOf env query documentId history])
    | .thrown msg =>
      ({ response := docErrorMsg, sources := [], confidence := 0,
         documentName := none, errorMsg := some msg },
       [docPromptOf env query documentId history])

/-- The general prompt when retrieval found context (lines 115–130). -/
def generalPromptWithContext (context histCtx query : String) : String :=
  "You are Docu Genie, a helpful document assistant. I found some relevant information from your uploaded documents:\x0a\x0a" ++
  context ++ "\x0a\x0a" ++
  (if histCtx ≠ "" then "Previous conversation:\x0a" ++ histCtx ++ "\x0a"
    else "") ++
  "\x0a\x0aQuestion: " ++ query ++
  "\x0a\x0aPlease provide a helpful response based on the available context and your knowledge."

/-- The general prompt when retrieval found nothing (lines 131–137). -/
def generalPromptNoContext (histCtx query : String) : String :=
  "You are Docu Genie, a helpful document assistant. " ++
  (if histCtx ≠ "" then "Previous conversation:\x0a" ++ histCtx ++ "\x0a"
    else "") ++
  "\x0a\x0aQuestion: " ++ query ++
  "\x0a\x0aPlease provide a helpful educational response. If this is about study materials, suggest that the user upload their documents for more specific help."

/-- The prompt `generateGeneralResponse` sends for a given call. -/
def generalPromptOf (env : AIEnv) (query : String) (history : List Msg) :
    String :=
  if (searchSimilarChunks env.search query none 3).length > 0 then
    generalPromptWithContext
      (contextOf (searchSimilarChunks env.search query none 3))
      (historyContext history 4) query
  else generalPromptNoContext (historyContext history 4) query

/-- `generateGeneralResponse` of `aiService.js` (lines 106–164): note that it
always calls the generation service, and its confidence is the constant
75 / 50 (not a mean of similarities). -/
def generateGeneralResponse (env : AIEnv) (query : String)
    (history : List Msg) : AIResult × List String :=
  let relevantChunks := searchSimilarChunks env.search query none 3
  match env.generate (generalPromptOf env query history) with
  | .ok text =>
    ({ response := text
       sources := relevantChunks.map fun ch =>
         { text := sourceText ch.text, chunkIndex := none,
           documentId := ch.documentId, similarity := ch.similarity }
       confidence := if relevantChunks.length > 0 then 75 else 50
       documentName := none
       errorMsg := none }, [generalPromptOf env query history])
  | .thrown msg =>
    ({ response := generalErrorMsg, sources := [], confidence := 0,
       documentName := none, errorMsg := some msg },
     [generalPromptOf env query history])

/-! ## documentProcessor.js — `processDocument` -/

/-- Per-chunk outcome of `dbUtils.createDocumentChunk` (the only call inside
the per-chunk `try` that can throw: `createEmbeddings` is total by C8 and
`storeInVectorDB` catches internally and returns a fallback id). -/
structure ProcEnv where
  chunkInsertFails : Nat → Bool

/-- What a `processDocument` run did: the resolved value, the stored chunk
rows `(documentId, text, index)`, and the terminal `processed` write. -/
structure ProcOutcome where
  success : Bool
  chunksCreated : Nat
  storedChunks : List (Nat × String × Nat)
  processedFlag : Bool
  threw : Bool
deriving DecidableEq

/-- `processDocument` of `documentProcessor.js` (lines 275–344) after a
successful extraction step (`extractedText` is the extractor's output):
empty trimmed text throws and records `processed = false`; otherwise every
chunk is attempted independently (a failing chunk is logged and skipped),
`processed = true` is recorded, and the resolved `chunksCreated` is the
total chunk count.  `none` means the chunker's fallback loop diverged. -/
def processDocument (env : ProcEnv) (fuel : Nat) (documentId : Nat)
    (extractedText : String) : Option ProcOutcome :=
  if (jsTrimL extractedText.data).length = 0 then
    some { success := false, chunksCreated := 0, storedChunks := [],
           processedFlag := false, threw := true }
  else
    match splitTextIntoChunks fuel extractedText 1000 200 with
    | none => none
    | some chunks =>
      some { success := true
             chunksCreated := chunks.length
             storedChunks := (idxFrom 0 chunks).filterMap fun p =>
               if env.chunkInsertFails p.1 then none
               else some (documentId, p.2, p.1)
             processedFlag := true
             threw := false }

/-! ### C2 — only the document-scoped path short-circuits on zero passages -/

/-- An environment with no vector index and no stored chunks (every search
returns zero passages); the generation service answers `"General answer"`. -/
def noIndexEnv : AIEnv :=
  { search :=
      { collection := none, queryThrows := false, chunkRows := [],
        documents := [] }
    generate := fun _ => .ok "General answer" }

/-- Claim C2 (refuted for the general path): with zero retrieved passages the
general composition still invokes the generation service (the recorded call
list is non-empty), reports confidence 50 (not 0), and does not return the
"no grounding" template. -/
theorem C2_counterexample :
    searchSimilarChunks noIndexEnv.search "q" none 3 = [] ∧
    (generateGeneralResponse noIndexEnv "q" []).2 ≠ [] ∧
    (generateGeneralResponse noIndexEnv "q" []).1.confidence = 50 ∧
    (generateGeneralResponse noIndexEnv "q" []).1.response ≠ noGroundingMsg :=
  ⟨by decide, by decide, by decide, by decide⟩

/-- Claim C2 as amended: the document-scoped path short-circuits on zero
passages — fixed template, confidence 0, generation never invoked — but the
general path always invokes generation (with the no-context prompt) and
reports confidence 50 when zero passages were retrieved. -/
theorem C2_zero_passages_composition (env : AIEnv) (query : String)
    (documentId : Nat) (history : List Msg) :
    (searchSimilarChunks env.search query (some documentId) 5 = [] →
      generateDocumentResponse env query documentId history =
        ({ response := noGroundingMsg, sources := [], confidence := 0,
           documentName := none, errorMsg := none }, [])) ∧
    (searchSimilarChunks env.search query none 3 = [] →
      (generateGeneralResponse env query history).2 =
        [generalPromptNoContext (historyContext history 4) query] ∧
      ∀ t, env.generate (generalPromptNoContext (historyContext history 4)
          query) = .ok t →
        (generateGeneralResponse env query history).1.confidence = 50 ∧
        (generateGeneralResponse env query history).1.response = t) := by
  constructor
  · intro h
    simp [generateDocumentResponse, h]
  · intro h
    have hp : generalPromptOf env query history =
        generalPromptNoContext (historyContext history 4) query := by
      simp [generalPromptOf, h]
    constructor
    · cases hgen : env.generate (generalPromptNoContext
          (historyContext history 4) query) with
      | ok t => simp [generateGeneralResponse, hp, hgen]
      | thrown m => simp [generateGeneralResponse, hp, hgen]
    · intro t hgen
      constructor
      · simp [generateGeneralResponse, hp, hgen, h]
      · simp [generateGeneralResponse, hp, hgen]

/-- Witness for the amended C2 in the zero-passage environment. -/
theorem C2_zero_passages_composition_witness :
    generateDocumentResponse noIndexEnv "q" 1 [] =
      ({ response := noGroundingMsg, sources := [], confidence := 0,
         documentName := none, errorMsg := none }, []) ∧
    (generateGeneralResponse noIndexEnv "q" []).2 =
      [generalPromptNoContext (historyContext [] 4) "q"] ∧
    (generateGeneralResponse noIndexEnv "q" []).1.confidence = 50 ∧
    (generateGeneralResponse noIndexEnv "q" []).1.response =
      "General answer" :=
  ⟨(C2_zero_passages_composition noIndexEnv "q" 1 []).1 (by decide),
   ((C2_zero_passages_composition noIndexEnv "q" 1 []).2 (by decide)).1,
   ((C2_zero_passages_composition noIndexEnv "q" 1 []).2 (by decide)).2
     "General answer" (by decide)⟩

/-! ### C9 — the general path's confidence is a constant, not a mean -/

/-- A collection with a single zero-distance passage of document 3. -/
def c9Coll : Collection :=
  { entries := [{ document_id := 3, chunk_index := 0, text := "ctx" }]
    dist := fun _ _ => 0 }

/-- Environment with one perfectly similar indexed passage. -/
def c9Env : AIEnv :=
  { search :=
      { collection := some c9Coll, queryThrows := false,
        chunkRows := [], documents := [] }
    generate := fun _ => .ok "A" }

/-- Claim C9 (refuted for the general path): with one retrieved passage of
similarity `1 − 0 = 1`, the mean-based confidence would be
`round(1 · 100) = 100`, but the code reports the constant 75; with zero
passages it reports 50, not 0. -/
theorem C9_counterexample :
    (generateGeneralResponse c9Env "q" []).1.confidence = 75 ∧
    (searchSimilarChunks c9Env.search "q" none 3).map
      RetrievalResult.similarity = [1 - 0] ∧
    jsRound ((1 - 0 : ℚ) / 1 * 100) = 100 ∧ (75 : Int) ≠ 100 ∧
    (generateGeneralResponse noIndexEnv "q" []).1.confidence = 50 ∧
    (50 : Int) ≠ 0 := by
  refine ⟨by decide, rfl, ?_, by decide, by decide, by decide⟩
  rw [jsRound, Int.floor_eq_iff]
  norm_num

/-- Claim C9 as amended: the document-scoped confidence is
`round(mean similarity × 100)` (0 on zero passages), while the general
confidence is the constant 75 when at least one passage was retrieved and 50
otherwise. -/
theorem C9_confidence (env : AIEnv) (query : String) (documentId : Nat)
    (history : List Msg) :
    (searchSimilarChunks env.search query (some documentId) 5 = [] →
      (generateDocumentResponse env query documentId history).1.confidence =
        0) ∧
    (searchSimilarChunks env.search query (some documentId) 5 ≠ [] →
      ∀ t, env.generate (docPromptOf env query documentId history) = .ok t →
      (generateDocumentResponse env query documentId history).1.confidence =
        jsRound (((searchSimilarChunks env.search query (some documentId)
            5).map RetrievalResult.similarity).sum /
          ((searchSimilarChunks env.search query (some documentId) 5).length :
            ℚ) * 100)) ∧
    (∀ t, env.generate (generalPromptOf env query history) = .ok t →
      (generateGeneralResponse env query history).1.confidence =
        if (searchSimilarChunks env.search query none 3).length > 0 then 75
        else 50) := by
  refine ⟨?_, ?_, ?_⟩
  · intro h
    simp [generateDocumentResponse, h]
  · intro h t hgen
    have hlen : (searchSimilarChunks env.search query (some documentId)
        5).length ≠ 0 := fun hc => h (List.length_eq_zero.mp hc)
    simp only [generateDocumentResponse, if_neg hlen, hgen]
    rw [if_pos (Nat.pos_of_ne_zero hlen)]
  · intro t hgen
    simp [generateGeneralResponse, hgen]

/-- Witness for the amended C9: in the one-passage environment the document
path reports the rounded scaled mean and the general path reports 75. -/
theorem C9_confidence_witness :
    (generateDocumentResponse c9Env "q" 3 []).1.confidence =
      jsRound (((searchSimilarChunks c9Env.search "q" (some 3) 5).map
          RetrievalResult.similarity).sum /
        ((searchSimilarChunks c9Env.search "q" (some 3) 5).length : ℚ) *
        100) ∧
    (generateGeneralResponse c9Env "q" []).1.confidence =
      (if (searchSimilarChunks c9Env.search "q" none 3).length > 0 then 75
        else 50) :=
  ⟨(C9_confidence c9Env "q" 3 []).2.1 (by decide) "A" (by decide),
   (C9_confidence c9Env "q" 3 []).2.2 "A" (by decide)⟩
/-! ### C7 — partial failure during ingestion -/

/-- Per-chunk environment for the C7 counterexample: storing chunk 0 throws,
every other chunk succeeds. -/
def c7ProcEnv : ProcEnv := { chunkInsertFails := fun i => decide (i = 0) }

/-- A two-sentence text whose sentences are 600 characters each, so the
default chunker produces exactly two chunks. -/
def c7Text : String :=
  String.mk (List.replicate 600 'a' ++ '.' :: ' ' ::
    (List.replicate 600 'b' ++ ['.']))

theorem c7_chunker_succeeds : (splitTextIntoChunks 1 c7Text 1000 200).isSome =
    true := by decide

/-- The chunk list the default chunker produces for `c7Text`. -/
def c7Chunks : List String :=
  (splitTextIntoChunks 1 c7Text 1000 200).get c7_chunker_succeeds

theorem c7Chunks_spec : splitTextIntoChunks 1 c7Text 1000 200 =
    some c7Chunks := (Option.some_get c7_chunker_succeeds).symm

/-- Claim C7 (refuted in its `chunksCreated` part): with two chunks and the
first chunk's database insert failing, processing continues (the second
chunk is stored and the document is marked processed), but the reported
`chunksCreated` is the total count 2, not the 1 chunk actually created — it
does not reflect partial success. -/
theorem C7_counterexample :
    (processDocument c7ProcEnv 1 7 c7Text).map (fun o =>
      (o.chunksCreated, o.storedChunks.length, o.processedFlag, o.success)) =
      some (2, 1, true, true) ∧ (2 : Nat) ≠ 1 :=
  ⟨by decide, by decide⟩

/-- Claim C7 as amended: when extraction succeeded (non-empty trimmed text)
and the chunker returned `chunks`, per-chunk insert failures do not abort the
remaining chunks (every chunk whose own insert succeeds is stored, whatever
happened before it), the document is marked processed and the run resolves
successfully — but `chunksCreated` always equals the total chunk count,
regardless of failures; partial success shows only in the stored rows. -/
theorem C7_partial_failure (env : ProcEnv) (fuel : Nat) (documentId : Nat)
    (text : String) (chunks : List String)
    (hne : (jsTrimL text.data).length ≠ 0)
    (hchunks : splitTextIntoChunks fuel text 1000 200 = some chunks) :
    ∃ o, processDocument env fuel documentId text = some o ∧
      o.processedFlag = true ∧ o.success = true ∧
      o.chunksCreated = chunks.length ∧
      ∀ p ∈ idxFrom 0 chunks, env.chunkInsertFails p.1 = false →
        (documentId, p.2, p.1) ∈ o.storedChunks := by
  have hrun : processDocument env fuel documentId text = some
      { success := true
        chunksCreated := chunks.length
        storedChunks := (idxFrom 0 chunks).filterMap fun p =>
          if env.chunkInsertFails p.1 then none
          else some (documentId, p.2, p.1)
        processedFlag := true
        threw := false } := by
    rw [processDocument, if_neg hne, hchunks]
  refine ⟨_, hrun, rfl, rfl, rfl, ?_⟩
  intro p hp hfail
  exact List.mem_filterMap.mpr ⟨p, hp, by rw [hfail]; simp⟩

/-- Witness for the amended C7 at the two-chunk input with a failing first
chunk. -/
theorem C7_partial_failure_witness :
    ((jsTrimL c7Text.data).length ≠ 0) ∧
    (splitTextIntoChunks 1 c7Text 1000 200 = some c7Chunks) ∧
    c7Chunks.length = 2 ∧
    ∃ o, processDocument c7ProcEnv 1 7 c7Text = some o ∧
      o.processedFlag = true ∧ o.success = true ∧
      o.chunksCreated = c7Chunks.length ∧
      ∀ p ∈ idxFrom 0 c7Chunks, c7ProcEnv.chunkInsertFails p.1 = false →
        (7, p.2, p.1) ∈ o.storedChunks :=
  ⟨by decide, c7Chunks_spec, by decide,
    C7_partial_failure c7ProcEnv 1 7 c7Text c7Chunks (by decide)
      c7Chunks_spec⟩
